import Mathlib

/-!
# Shallow embedding of the chip8-emulator core

Verification development for a CHIP-8 virtual-machine interpreter written in
Rust.  The embedding translates the core modules:

* `src/memory.rs`  — the 4096-byte address space (`Memory.set_byte`,
  `Memory.get_byte`, `Memory.get_short`);
* `src/screen.rs`  — the 64×32 monochrome framebuffer (`Screen.flip`);
* `src/cpu.rs`     — `split_into_nibbles`, `Cpu.decode`, `Cpu.fetch`,
  `Cpu.execute` and the delay-timer tick closure installed by `Cpu.new`;
* `src/register.rs` / `src/address.rs` — registers are nibbles 0‥15, addresses
  are `u16` values used as indices.

Machine integers are modelled as `Nat` with explicit reduction `% 256`
(`u8`) or `% 65536` (`u16`) where the Rust code can overflow (release-mode
wrapping semantics).  An unsigned subtraction or out-of-bounds array index
that panics in Rust is modelled by an explicit `panic` outcome.  Register
files, memory, the call stack and the framebuffer are total functions with
the source's bounds checks made explicit.
-/

namespace Chip8

/-- Update a one-argument map at a point (models an array store). -/
def upd (f : Nat → Nat) (k v : Nat) : Nat → Nat :=
  fun x => if x = k then v else f x

/-- Update a two-argument boolean grid at a point (models `pixels[y][x] = b`). -/
def upd2 (f : Nat → Nat → Bool) (y x : Nat) (b : Bool) : Nat → Nat → Bool :=
  fun y' x' => if y' = y ∧ x' = x then b else f y' x'

@[simp] theorem upd_same (f : Nat → Nat) (k v : Nat) : upd f k v k = v := by
  simp [upd]

@[simp] theorem upd_other (f : Nat → Nat) (k v x : Nat) (h : x ≠ k) :
    upd f k v x = f x := by
  simp [upd, h]

/-- The error enumeration of `CpuError` in `src/cpu.rs` (the payload of the
string-carrying variants and the I/O variant are irrelevant to execution). -/
inductive CpuError where
  | StackOverflow
  | InfiniteLoop
  | InvalidAddress
  | InvalidRegister
  | SegmentationFault (addr : Nat)
  | InvalidInstruction (word : Nat)
  deriving DecidableEq, Repr

/-- The decoded instruction type of `src/isa.rs`.  Registers are nibble
indices 0‥15 (`VRegister`), addresses are 12-bit values, immediates bytes. -/
inductive Instruction where
  | ClearScreen
  | Return
  | Jump (addr : Nat)
  | Call (addr : Nat)
  | SkipIfEqualImm (vx imm : Nat)
  | SkipIfNotEqualImm (vx imm : Nat)
  | SkipIfEqual (vx vy : Nat)
  | LoadImm (vx imm : Nat)
  | AddImm (vx imm : Nat)
  | Move (vx vy : Nat)
  | Or (vx vy : Nat)
  | And (vx vy : Nat)
  | Xor (vx vy : Nat)
  | Add (vx vy : Nat)
  | Subtract (vx vy : Nat)
  | ShiftRight (vx : Nat)
  | SubtractN (vx vy : Nat)
  | ShiftLeft (vx : Nat)
  | SkipIfNotEqual (vx vy : Nat)
  | LoadI (addr : Nat)
  | JumpOffset (addr : Nat)
  | AndRandom (vx imm : Nat)
  | Draw (vx vy n : Nat)
  | LoadDT (vx : Nat)
  | StoreDT (vx : Nat)
  | AddI (vx : Nat)
  | LoadSprite (vx : Nat)
  | StoreBCD (vx : Nat)
  | Store (vx : Nat)
  | Load (vx : Nat)
  | Nop
  deriving DecidableEq, Repr

/-! ## Memory (`src/memory.rs`) -/

/-- `MEMORY_SIZE` in `src/memory.rs`. -/
def MEMORY_SIZE : Nat := 0x1000

/-- `Memory.get_byte`: `self.mem.get(address.0 as usize)` succeeds exactly when
the index is inside the 4096-byte array, otherwise `SegmentationFault`. -/
def getByte (mem : Nat → Nat) (address : Nat) : Except CpuError Nat :=
  if address < MEMORY_SIZE then .ok (mem address)
  else .error (.SegmentationFault address)

/-- `Memory.set_byte`: on success returns the new memory together with the
byte previously stored there (`Ok(out)` in the source); out of bounds it
fails with `SegmentationFault` and the memory is untouched. -/
def setByte (mem : Nat → Nat) (address byte : Nat) :
    Except CpuError ((Nat → Nat) × Nat) :=
  if address < MEMORY_SIZE then .ok (upd mem address byte, mem address)
  else .error (.SegmentationFault address)

/-- `Memory.get_short`: big-endian 16-bit read at `address`, `address + 1`
(the `+` is `Address + Address(1)`, `u16` addition).  Any failure is reported
as `SegmentationFault(address)`. -/
def getShort (mem : Nat → Nat) (address : Nat) : Except CpuError Nat :=
  match getByte mem address, getByte mem ((address + 1) % 65536) with
  | .ok msb, .ok lsb => .ok (msb * 256 + lsb)
  | _, _ => .error (.SegmentationFault address)

/-! ## Screen (`src/screen.rs`) -/

/-- `NROWS` in `src/screen.rs`. -/
def NROWS : Nat := 32
/-- `NCOLS` in `src/screen.rs`. -/
def NCOLS : Nat := 64

/-- `Screen.flip`: out of bounds returns `None`; otherwise toggles the pixel
and returns the pixel's previous state (`Some(out)`).  The screen is a map
`row → column → Bool`; the source indexes `pixels[y][x]`. -/
def flip (scr : Nat → Nat → Bool) (x y : Nat) :
    Option (Bool × (Nat → Nat → Bool)) :=
  if x ≥ NCOLS ∨ y ≥ NROWS then none
  else some (scr y x, upd2 scr y x (!scr y x))

/-! ## Decoder (`Cpu.decode` in `src/cpu.rs`) -/

/-- `split_into_nibbles`: big-endian 4-bit fields of a 16-bit word. -/
def split_into_nibbles (i : Nat) : Nat × Nat × Nat × Nat :=
  (i / 4096 % 16, i / 256 % 16, i / 16 % 16, i % 16)

/-- `VRegister::try_from(u8)`: succeeds exactly on nibble values 0‥15
(defensive — decode only ever passes nibbles). -/
def tryReg (value : Nat) : Except CpuError Nat :=
  if value < 16 then .ok value else .error .InvalidRegister

/-- The dispatch of `Cpu.decode` on the four nibbles, exactly as the source
`match`, abstracted over the values the source computes before matching
(`nibbles`, `addr = instruction & 0xFFF`, `lsb = instruction & 0xFF`,
`lsn = instruction & 0xF`, and the word `w` itself for the error payload). -/
def decodeAux (n3 n2 n1 n0 addr lsb lsn w : Nat) : Except CpuError Instruction :=
  if n3 = 0x0 ∧ n2 = 0x0 ∧ n1 = 0xE ∧ n0 = 0x0 then .ok .ClearScreen
  else if n3 = 0x0 ∧ n2 = 0x0 ∧ n1 = 0xE ∧ n0 = 0xE then .ok .Return
  else if n3 = 0x1 then .ok (.Jump addr)
  else if n3 = 0x2 then .ok (.Call addr)
  else if n3 = 0x3 then (tryReg n2).map (fun vx => .SkipIfEqualImm vx lsb)
  else if n3 = 0x4 then (tryReg n2).map (fun vx => .SkipIfNotEqualImm vx lsb)
  else if n3 = 0x5 ∧ n0 = 0x0 then
    (tryReg n2).bind (fun vx => (tryReg n1).map (fun vy => .SkipIfEqual vx vy))
  else if n3 = 0x6 then (tryReg n2).map (fun vx => .LoadImm vx lsb)
  else if n3 = 0x7 then (tryReg n2).map (fun vx => .AddImm vx lsb)
  else if n3 = 0x8 ∧ n0 = 0x0 then
    (tryReg n2).bind (fun vx => (tryReg n1).map (fun vy => .Move vx vy))
  else if n3 = 0x8 ∧ n0 = 0x1 then
    (tryReg n2).bind (fun vx => (tryReg n1).map (fun vy => .Or vx vy))
  else if n3 = 0x8 ∧ n0 = 0x2 then
    (tryReg n2).bind (fun vx => (tryReg n1).map (fun vy => .And vx vy))
  else if n3 = 0x8 ∧ n0 = 0x3 then
    (tryReg n2).bind (fun vx => (tryReg n1).map (fun vy => .Xor vx vy))
  else if n3 = 0x8 ∧ n0 = 0x4 then
    (tryReg n2).bind (fun vx => (tryReg n1).map (fun vy => .Add vx vy))
  else if n3 = 0x8 ∧ n0 = 0x5 then
    (tryReg n2).bind (fun vx => (tryReg n1).map (fun vy => .Subtract vx vy))
  else if n3 = 0x8 ∧ n0 = 0x6 then (tryReg n2).map .ShiftRight
  else if n3 = 0x8 ∧ n0 = 0x7 then
    (tryReg n2).bind (fun vx => (tryReg n1).map (fun vy => .SubtractN vx vy))
  else if n3 = 0x8 ∧ n0 = 0xE then (tryReg n2).map .ShiftLeft
  else if n3 = 0x9 ∧ n0 = 0x0 then
    (tryReg n2).bind (fun vx => (tryReg n1).map (fun vy => .SkipIfNotEqual vx vy))
  else if n3 = 0xA then .ok (.LoadI addr)
  else if n3 = 0xB then .ok (.JumpOffset addr)
  else if n3 = 0xC then (tryReg n2).map (fun vx => .AndRandom vx lsb)
  else if n3 = 0xD then
    (tryReg n2).bind (fun vx => (tryReg n1).map (fun vy => .Draw vx vy lsn))
  else if n3 = 0xF ∧ n1 = 0x0 ∧ n0 = 0x7 then (tryReg n2).map .LoadDT
  else if n3 = 0xF ∧ n1 = 0x1 ∧ n0 = 0x5 then (tryReg n2).map .StoreDT
  else if n3 = 0xF ∧ n1 = 0x1 ∧ n0 = 0x8 then .ok .Nop
  else if n3 = 0xF ∧ n1 = 0x1 ∧ n0 = 0xE then (tryReg n2).map .AddI
  else if n3 = 0xF ∧ n1 = 0x2 ∧ n0 = 0x9 then (tryReg n2).map .LoadSprite
  else if n3 = 0xF ∧ n1 = 0x3 ∧ n0 = 0x3 then (tryReg n2).map .StoreBCD
  else if n3 = 0xF ∧ n1 = 0x5 ∧ n0 = 0x5 then (tryReg n2).map .Store
  else if n3 = 0xF ∧ n1 = 0x6 ∧ n0 = 0x5 then (tryReg n2).map .Load
  else .error (.InvalidInstruction w)

/-- `Cpu.decode`: split the word into nibbles, precompute `addr`/`lsb`/`lsn`,
then dispatch as the source `match` does. -/
def decode (instruction : Nat) : Except CpuError Instruction :=
  let n := split_into_nibbles instruction
  decodeAux n.1 n.2.1 n.2.2.1 n.2.2.2
    (instruction % 4096) (instruction % 256) (instruction % 16) instruction

/-! ## Machine state (`struct Cpu` in `src/cpu.rs`) -/

/-- The CPU state: sixteen 8-bit registers `v`, the index register `i`, the
delay timer `dt`, program counter `pc`, stack pointer `sp` with the 16-slot
call stack, the 4096-byte memory, the 64×32 framebuffer, and the byte the
random source would produce next (`rand::random::<u8>()` oracle). -/
structure CpuState where
  v : Nat → Nat
  i : Nat
  dt : Nat
  pc : Nat
  sp : Nat
  stack : Nat → Nat
  mem : Nat → Nat
  screen : Nat → Nat → Bool
  rng : Nat

/-- Outcome of one `Cpu.execute` (or `fetch`/full cycle): success with the new
state, an error together with the state as mutated up to the early return
(`&mut self` keeps partial mutations), or a Rust panic (the unsigned
underflow `self.sp -= 1` of `Return` on an empty stack, which aborts in both
debug and release profiles — release wraps and then indexes
`stack[usize::MAX]` out of bounds). -/
inductive ExecOut where
  | ok : CpuState → ExecOut
  | err : CpuState → CpuError → ExecOut
  | panic : ExecOut

/-- `PC_INCREMENT` in `src/cpu.rs`. -/
def PC_INCREMENT : Nat := 2
/-- `PC_START` in `src/cpu.rs`. -/
def PC_START : Nat := 0x200
/-- `STACK_SIZE` in `src/cpu.rs`. -/
def STACK_SIZE : Nat := 0x10

/-- `Address.offset` / `Address + Address`: `u16` addition (wraps at 2^16). -/
def addrOffset (a off : Nat) : Nat := (a + off) % 65536

/-! ### The draw loops of the `Draw` arm of `Cpu.execute`

The inner loop walks the 8 sprite bits MSB-first (`for i in (0u8..8).rev()`),
advancing the column `xx` each step; a set bit flips the pixel and stores the
pixel's previous state into `VF`; a `flip` that reports out-of-bounds `break`s
out of the row.  The fuel argument `k` stands for `i + 1`, so bit `k - 1` is
examined at each step.  The result is the screen together with the running
`VF` value. -/

/-- One sprite row of the `Draw` arm (`for i in (0u8..8).rev() { ... }`). -/
def drawRowGo (data y : Nat) : Nat → Nat → (Nat → Nat → Bool) → Nat →
    ((Nat → Nat → Bool) × Nat)
  | 0, _, scr, vf => (scr, vf)
  | k + 1, xx, scr, vf =>
    if 0 < (1 <<< k) &&& data then
      match flip scr xx y with
      | some (out, scr') => drawRowGo data y k (xx + 1) scr' (if out then 1 else 0)
      | none => (scr, vf)
    else
      drawRowGo data y k (xx + 1) scr vf

/-- The outer loop of the `Draw` arm (`for offset in 0..(n.into())`): reads the
sprite byte at `I + offset`, draws the row, advances `y`.  A memory fault
stops the loop and is reported; flips already performed stay. -/
def drawRowsGo (mem : Nat → Nat) (iReg x : Nat) :
    Nat → Nat → Nat → (Nat → Nat → Bool) → Nat →
    ((Nat → Nat → Bool) × Nat × Option CpuError)
  | 0, _, _, scr, vf => (scr, vf, none)
  | k + 1, off, y, scr, vf =>
    match getByte mem (addrOffset iReg off) with
    | .error e => (scr, vf, some e)
    | .ok data =>
      let p := drawRowGo data y 8 x scr vf
      drawRowsGo mem iReg x k (off + 1) (y + 1) p.1 p.2

/-- The loop of the `Load` arm (`for r in 0u8..((reg as u8) + 1)`): registers
`V0..=Vx` are filled from memory at `I + r`; a fault stops the loop with the
earlier registers already written. -/
def loadGo (mem : Nat → Nat) (iReg : Nat) :
    Nat → Nat → (Nat → Nat) → ((Nat → Nat) × Option CpuError)
  | 0, _, v => (v, none)
  | k + 1, r, v =>
    match tryReg r with
    | .error e => (v, some e)
    | .ok _ =>
      match getByte mem (addrOffset iReg r) with
      | .error e => (v, some e)
      | .ok b => loadGo mem iReg k (r + 1) (upd v r b)

/-- The loop of the `Store` arm: memory at `I + r` receives `V0..=Vx`; a fault
stops the loop with the earlier bytes already written. -/
def storeGo (v : Nat → Nat) (iReg : Nat) :
    Nat → Nat → (Nat → Nat) → ((Nat → Nat) × Option CpuError)
  | 0, _, mem => (mem, none)
  | k + 1, r, mem =>
    match tryReg r with
    | .error e => (mem, some e)
    | .ok _ =>
      match setByte mem (addrOffset iReg r) (v r) with
      | .error e => (mem, some e)
      | .ok (mem', _) => storeGo v iReg k (r + 1) mem'

/-- `Cpu.execute`: one instruction against the machine state.  `u8`/`u16`
arithmetic is `Nat` arithmetic reduced `% 256` / `% 65536` where the source
relies on wrapping (`wrapping_add`, `overflowing_add/sub`, shifts, address
arithmetic); sequencing of register writes follows the source statement
order, which is what resolves the intentional `VF` aliasing. -/
def execute (s : CpuState) : Instruction → ExecOut
  | .Nop => .ok s
  | .ClearScreen => .ok { s with screen := fun _ _ => false }
  | .Return =>
    if s.sp = 0 then .panic
    else .ok { s with sp := s.sp - 1, pc := s.stack (s.sp - 1) }
  | .Jump addr =>
    if (s.pc + 65534) % 65536 = addr then .err s .InfiniteLoop
    else .ok { s with pc := addr }
  | .JumpOffset addr => .ok { s with pc := addrOffset addr (s.v 0) }
  | .Call addr =>
    if s.sp ≥ STACK_SIZE then .err s .StackOverflow
    else .ok { s with stack := upd s.stack s.sp s.pc, pc := addr, sp := s.sp + 1 }
  | .SkipIfEqualImm reg imm =>
    if s.v reg = imm then .ok { s with pc := (s.pc + PC_INCREMENT) % 65536 } else .ok s
  | .SkipIfNotEqualImm reg imm =>
    if s.v reg ≠ imm then .ok { s with pc := (s.pc + PC_INCREMENT) % 65536 } else .ok s
  | .SkipIfEqual regx regy =>
    if s.v regx = s.v regy then .ok { s with pc := (s.pc + PC_INCREMENT) % 65536 } else .ok s
  | .SkipIfNotEqual regx regy =>
    if s.v regx ≠ s.v regy then .ok { s with pc := (s.pc + PC_INCREMENT) % 65536 } else .ok s
  | .LoadImm reg imm => .ok { s with v := upd s.v reg imm }
  | .AddImm reg imm => .ok { s with v := upd s.v reg ((s.v reg + imm) % 256) }
  | .Move regx regy => .ok { s with v := upd s.v regx (s.v regy) }
  | .Or regx regy => .ok { s with v := upd s.v regx (s.v regx ||| s.v regy) }
  | .And regx regy => .ok { s with v := upd s.v regx (s.v regx &&& s.v regy) }
  | .Xor regx regy => .ok { s with v := upd s.v regx (s.v regx ^^^ s.v regy) }
  | .AndRandom reg byte => .ok { s with v := upd s.v reg (byte &&& s.rng % 256) }
  | .AddI reg => .ok { s with i := (s.i + s.v reg) % 65536 }
  | .Add regx regy =>
    let sum := s.v regx + s.v regy
    let v1 := upd s.v regx (sum % 256)
    .ok { s with v := upd v1 15 (if 256 ≤ sum then 1 else 0) }
  | .Subtract regx regy =>
    let diff := (s.v regx + 256 - s.v regy) % 256
    let v1 := upd s.v 15 (if s.v regy ≤ s.v regx then 1 else 0)
    .ok { s with v := upd v1 regx diff }
  | .SubtractN regx regy =>
    let diff := (s.v regy + 256 - s.v regx) % 256
    let v1 := upd s.v 15 (if s.v regx ≤ s.v regy then 1 else 0)
    .ok { s with v := upd v1 regx diff }
  | .ShiftRight regx =>
    let v1 := upd s.v 15 (s.v regx &&& 0x1)
    .ok { s with v := upd v1 regx (v1 regx / 2) }
  | .ShiftLeft regx =>
    let v1 := upd s.v 15 ((s.v regx &&& 0x80) >>> 7)
    .ok { s with v := upd v1 regx (v1 regx * 2 % 256) }
  | .LoadI addr => .ok { s with i := addr }
  | .LoadDT reg => .ok { s with v := upd s.v reg s.dt }
  | .StoreDT reg => .ok { s with dt := s.v reg }
  | .LoadSprite reg => .ok { s with i := (s.v reg &&& 0xF) * 5 }
  | .Load reg =>
    match loadGo s.mem s.i (reg % 256 + 1) 0 s.v with
    | (v', none) => .ok { s with v := v' }
    | (v', some e) => .err { s with v := v' } e
  | .Store reg =>
    match storeGo s.v s.i (reg % 256 + 1) 0 s.mem with
    | (mem', none) => .ok { s with mem := mem' }
    | (mem', some e) => .err { s with mem := mem' } e
  | .StoreBCD reg =>
    let val := s.v reg
    match setByte s.mem s.i (val / 100) with
    | .error e => .err s e
    | .ok (m1, _) =>
      match setByte m1 (addrOffset s.i 1) (val / 10 % 10) with
      | .error e => .err { s with mem := m1 } e
      | .ok (m2, _) =>
        match setByte m2 (addrOffset s.i 2) (val % 10) with
        | .error e => .err { s with mem := m2 } e
        | .ok (m3, _) => .ok { s with mem := m3 }
  | .Draw regx regy n =>
    let x := s.v regx &&& 63
    let y := s.v regy &&& 31
    match drawRowsGo s.mem s.i x n 0 y s.screen (s.v 15) with
    | (scr, vf, none) => .ok { s with screen := scr, v := upd s.v 15 vf }
    | (scr, vf, some e) => .err { s with screen := scr, v := upd s.v 15 vf } e

/-! ## Fetch and one full cycle (`Cpu.fetch`, the loop body of `main.rs`) -/

/-- `Cpu.fetch`: 16-bit read at `PC`, then `PC += 2`.  On a read fault the
program counter is not advanced (the `?` returns before the increment). -/
def fetch (s : CpuState) : Except CpuError (Nat × CpuState) :=
  match getShort s.mem s.pc with
  | .error e => .error e
  | .ok w => .ok (w, { s with pc := (s.pc + PC_INCREMENT) % 65536 })

/-- One fetch → decode → execute iteration of the driving loop in
`src/main.rs`; each error propagates immediately. -/
def cycle (s : CpuState) : ExecOut :=
  match fetch s with
  | .error e => .err s e
  | .ok (w, s1) =>
    match decode w with
    | .error e => .err s1 e
    | .ok instr => execute s1 instr

/-! ## Delay-timer service (`Ticker` closure in `Cpu.new`, `src/cpu.rs`)

The tick closure is *not* one atomic step: it is a SeqCst `dtc.load()`
followed, when the loaded value was positive, by a separate SeqCst
`dtc.fetch_sub(1)`.  Each micro-step is individually atomic, so a concurrent
history is a linear sequence of micro-steps in which the execution thread's
`StoreDT`/`LoadDT` may land *between* the closure's load and its
`fetch_sub`.  The state tracks, besides the byte, whether the timer thread
has passed its `> 0` check and still owes the `fetch_sub`. -/

/-- The shared delay-timer byte together with the timer thread's position
inside the tick closure (`pending = true` between a successful `> 0` check
and the `fetch_sub`). -/
structure DtState where
  dt : Nat
  pending : Bool
  deriving DecidableEq, Repr

/-- One atomic micro-step on the shared byte: the tick closure's
`dtc.load(SeqCst)` with its `> 0` test; the tick closure's
`dtc.fetch_sub(1, SeqCst)` (wrapping `u8` subtraction); `StoreDT`'s
`dt.store(v, SeqCst)`; `LoadDT`'s `dt.load(SeqCst)` (no write). -/
inductive DtStep where
  | tickLoad
  | tickSub
  | store (b : Nat)
  | load

/-- Effect of one micro-step.  `tickSub` only acts when a `tickLoad` saw a
positive value and is still pending, mirroring the closure's control flow. -/
def dtStep (s : DtState) : DtStep → DtState
  | .tickLoad => if 0 < s.dt then { s with pending := true } else s
  | .tickSub =>
    if s.pending then { dt := (s.dt + 255) % 256, pending := false } else s
  | .store b => { s with dt := b }
  | .load => s

/-- The shared byte after a linear history of micro-steps. -/
def runDtTrace (s : DtState) : List DtStep → DtState
  | [] => s
  | step :: rest => runDtTrace (dtStep s step) rest

/-! ## Sample states used by the witnesses -/

/-- A freshly initialised machine with empty memory (registers, timers, stack
and screen all zero, `PC = 0x200` as `Cpu.new` sets them). -/
def zeroState : CpuState :=
  { v := fun _ => 0, i := 0, dt := 0, pc := PC_START, sp := 0,
    stack := fun _ => 0, mem := fun _ => 0,
    screen := fun _ _ => false, rng := 0 }

/-- `zeroState` with `V0 = 200`, `V1 = 100`. -/
def sampleState : CpuState :=
  { zeroState with v := fun r => if r = 0 then 200 else if r = 1 then 100 else 0 }

/-! ## C7 — memory round trip and bounds enforcement -/

/-- C7: writing a byte at an in-range address succeeds, returns the byte
previously stored there, and a subsequent read at the same address returns the
written byte; at any address `≥ 0x1000` (within the `u16` address type) both
reading and writing fail with `SegmentationFault` at that address, and a
failed write produces no new memory. -/
theorem chip8_memory_roundtrip :
    (∀ (m : Nat → Nat) (a b : Nat), a < 0x1000 →
      setByte m a b = .ok (upd m a b, m a) ∧ getByte (upd m a b) a = .ok b) ∧
    (∀ (m : Nat → Nat) (a b : Nat), 0x1000 ≤ a → a < 0x10000 →
      getByte m a = .error (.SegmentationFault a) ∧
      setByte m a b = .error (.SegmentationFault a)) := by
  constructor
  · intro m a b ha
    refine ⟨by simp [setByte, MEMORY_SIZE, ha], ?_⟩
    simp [getByte, MEMORY_SIZE, ha, upd]
  · intro m a b ha _hb
    have h : ¬ a < MEMORY_SIZE := by simp only [MEMORY_SIZE]; omega
    exact ⟨by simp [getByte, h], by simp [setByte, h]⟩

/-- Witness for C7 at a concrete memory, address and byte. -/
theorem chip8_memory_roundtrip_witness :
    (setByte (fun _ => 7) 0x300 0xAB = .ok (upd (fun _ => 7) 0x300 0xAB, 7) ∧
      getByte (upd (fun _ => 7) 0x300 0xAB) 0x300 = .ok 0xAB) ∧
    (getByte (fun _ => 7) 0x1000 = .error (.SegmentationFault 0x1000) ∧
      setByte (fun _ => 7) 0x1000 0xAB = .error (.SegmentationFault 0x1000)) :=
  ⟨chip8_memory_roundtrip.1 (fun _ => 7) 0x300 0xAB (by decide),
   chip8_memory_roundtrip.2 (fun _ => 7) 0x1000 0xAB (by decide) (by decide)⟩

/-! ## C9 — delay-timer tick: the check-then-act race can wrap 0 → 255

An *uninterrupted* tick behaves as the claim says: it decrements the byte by
exactly 1 when positive and leaves 0 at 0.  But the claim's "never wraps
from 0 to 255 under any interleaving with `LoadDT`/`StoreDT`" is false of
the code: the closure's `> 0` check (`dtc.load`) and its decrement
(`dtc.fetch_sub`) are two separate atomic operations, so a `StoreDT` that
writes 0 between them makes the subsequent `fetch_sub` wrap the `u8` byte
from 0 to 255. -/

/-- C9 (failing interleaving): an uninterrupted tick decrements a positive
byte by exactly 1 and leaves 0 at 0 — but from `dt = 1`, the trace
"tick's load sees 1 > 0; `StoreDT` writes 0; tick's `fetch_sub` runs" ends
with the byte at 255: the timer wraps from 0 to 255, which the claim rules
out. -/
theorem chip8_timer_tick_race :
    (∀ d : Nat, 0 < d → d ≤ 255 →
      runDtTrace { dt := d, pending := false } [.tickLoad, .tickSub]
        = { dt := d - 1, pending := false }) ∧
    runDtTrace { dt := 0, pending := false } [.tickLoad, .tickSub]
      = { dt := 0, pending := false } ∧
    runDtTrace { dt := 1, pending := false } [.tickLoad, .store 0, .tickSub]
      = { dt := 255, pending := false } := by
  refine ⟨?_, rfl, rfl⟩
  intro d hd hd255
  simp [runDtTrace, dtStep, hd]
  omega

/-- Witness for C9's uninterrupted-tick conjunct at `dt = 5`. -/
theorem chip8_timer_tick_race_witness :
    runDtTrace { dt := 5, pending := false } [.tickLoad, .tickSub]
      = { dt := 4, pending := false } := by
  simpa using chip8_timer_tick_race.1 5 (by norm_num) (by norm_num)

/-! ## C10 — Return on an empty stack -/

/-- C10: `Return` with `sp = 0` never produces a `CpuError` — the source has
no underflow branch, `self.sp -= 1` underflows and the program panics; with
`sp ≥ 1` it pops the stack: `PC := stack[sp - 1]`, `sp := sp - 1`. -/
theorem chip8_return_underflow_panics :
    (∀ s : CpuState, s.sp = 0 → execute s .Return = .panic) ∧
    (∀ (s s' : CpuState) (e : CpuError), execute s .Return ≠ .err s' e) ∧
    (∀ s : CpuState, 1 ≤ s.sp →
      execute s .Return = .ok { s with sp := s.sp - 1, pc := s.stack (s.sp - 1) }) := by
  refine ⟨fun s hs => by simp [execute, hs], ?_, ?_⟩
  · intro s s' e h
    by_cases hs : s.sp = 0 <;> simp [execute, hs] at h
  · intro s hs
    have : ¬ s.sp = 0 := by omega
    simp [execute, this]

/-- Witness for C10 at concrete machine states. -/
theorem chip8_return_underflow_panics_witness :
    execute zeroState .Return = .panic ∧
    execute { zeroState with sp := 1, stack := fun _ => 0x345 } .Return
      = .ok { zeroState with sp := 0, stack := fun _ => 0x345, pc := 0x345 } :=
  ⟨chip8_return_underflow_panics.1 zeroState rfl,
   chip8_return_underflow_panics.2.2 { zeroState with sp := 1, stack := fun _ => 0x345 }
     (by decide)⟩

/-! ## C3 — Add with carry flag -/

/-- C3: `Add(Vx, Vy)` stores `(a + b) mod 256` into `Vx` (for `Vx ≠ VF`; when
`Vx = VF` the subsequent flag write intentionally overwrites it — the
documented VF aliasing) and sets `VF = 1` exactly when `a + b ≥ 256`, `0`
otherwise. -/
theorem chip8_add_carry (s : CpuState) (rx ry : Nat)
    (hx : rx < 16) (hy : ry < 16)
    (ha : s.v rx < 256) (hb : s.v ry < 256) :
    ∃ s', execute s (.Add rx ry) = .ok s' ∧
      (rx ≠ 15 → s'.v rx = (s.v rx + s.v ry) % 256) ∧
      (s'.v 15 = 1 ↔ 256 ≤ s.v rx + s.v ry) ∧
      (s'.v 15 = 0 ↔ s.v rx + s.v ry < 256) := by
  refine ⟨_, rfl, ?_, ?_, ?_⟩
  · intro hne
    simp [upd, hne]
  · by_cases h : 256 ≤ s.v rx + s.v ry <;> simp [upd, h]
  · by_cases h : 256 ≤ s.v rx + s.v ry <;> simp [upd, h] <;> omega

/-- Witness for C3: `V0 = 200`, `V1 = 100`; the sum 300 wraps to 44 with
carry. -/
theorem chip8_add_carry_witness :
    ∃ s', execute sampleState (.Add 0 1) = .ok s' ∧
      (0 ≠ 15 → s'.v 0 = (sampleState.v 0 + sampleState.v 1) % 256) ∧
      (s'.v 15 = 1 ↔ 256 ≤ sampleState.v 0 + sampleState.v 1) ∧
      (s'.v 15 = 0 ↔ sampleState.v 0 + sampleState.v 1 < 256) :=
  chip8_add_carry sampleState 0 1 (by decide) (by decide) (by decide) (by decide)

/-! ## C4 — Subtract / SubtractN with the inverted borrow flag -/

/-- C4: `Subtract(Vx, Vy)` stores `(a - b) mod 256` (as `(a + 256 - b) % 256`
on 8-bit values) into `Vx` and sets `VF = 1` exactly when `a ≥ b` (no
borrow, `VF = !overflow`); `SubtractN(Vx, Vy)` stores `(b - a) mod 256` with
`VF = 1` exactly when `b ≥ a`.  (The `VF` flag conjuncts are for `Vx ≠ VF`:
when `Vx = VF` the later difference write overwrites the flag — the
documented aliasing.) -/
theorem chip8_subtract_not_borrow (s : CpuState) (rx ry : Nat)
    (hx : rx < 16) (hy : ry < 16)
    (ha : s.v rx < 256) (hb : s.v ry < 256) :
    (∃ s', execute s (.Subtract rx ry) = .ok s' ∧
      s'.v rx = (s.v rx + 256 - s.v ry) % 256 ∧
      (rx ≠ 15 → ((s'.v 15 = 1 ↔ s.v ry ≤ s.v rx) ∧
        (s'.v 15 = 0 ↔ s.v rx < s.v ry)))) ∧
    (∃ s', execute s (.SubtractN rx ry) = .ok s' ∧
      s'.v rx = (s.v ry + 256 - s.v rx) % 256 ∧
      (rx ≠ 15 → ((s'.v 15 = 1 ↔ s.v rx ≤ s.v ry) ∧
        (s'.v 15 = 0 ↔ s.v ry < s.v rx)))) := by
  constructor
  · refine ⟨_, rfl, by simp [upd], ?_⟩
    intro hne
    have h15 : (15 : Nat) ≠ rx := fun h => hne h.symm
    constructor
    · by_cases h : s.v ry ≤ s.v rx <;> simp [upd, h15, h] <;> omega
    · by_cases h : s.v ry ≤ s.v rx <;> simp [upd, h15, h] <;> omega
  · refine ⟨_, rfl, by simp [upd], ?_⟩
    intro hne
    have h15 : (15 : Nat) ≠ rx := fun h => hne h.symm
    constructor
    · by_cases h : s.v rx ≤ s.v ry <;> simp [upd, h15, h] <;> omega
    · by_cases h : s.v rx ≤ s.v ry <;> simp [upd, h15, h] <;> omega

/-- Witness for C4: `V0 = 200`, `V1 = 100`: `SUB` gives 100 with `VF = 1`,
`SUBN` gives 156 with `VF = 0`. -/
theorem chip8_subtract_not_borrow_witness :
    (∃ s', execute sampleState (.Subtract 0 1) = .ok s' ∧
      s'.v 0 = (sampleState.v 0 + 256 - sampleState.v 1) % 256 ∧
      (0 ≠ 15 → ((s'.v 15 = 1 ↔ sampleState.v 1 ≤ sampleState.v 0) ∧
        (s'.v 15 = 0 ↔ sampleState.v 0 < sampleState.v 1)))) ∧
    (∃ s', execute sampleState (.SubtractN 0 1) = .ok s' ∧
      s'.v 0 = (sampleState.v 1 + 256 - sampleState.v 0) % 256 ∧
      (0 ≠ 15 → ((s'.v 15 = 1 ↔ sampleState.v 0 ≤ sampleState.v 1) ∧
        (s'.v 15 = 0 ↔ sampleState.v 1 < sampleState.v 0)))) :=
  chip8_subtract_not_borrow sampleState 0 1 (by decide) (by decide) (by decide) (by decide)

/-! ## C5 — bounded call stack, LIFO return -/

/-- A sequence of `Call` instructions, stopping at the first non-`ok`
outcome. -/
def runCalls (s : CpuState) : List Nat → ExecOut
  | [] => .ok s
  | a :: rest =>
    match execute s (.Call a) with
    | .ok s' => runCalls s' rest
    | .err s' e => .err s' e
    | .panic => .panic

theorem runCalls_append (l₁ : List Nat) :
    ∀ (s : CpuState) (l₂ : List Nat),
      runCalls s (l₁ ++ l₂) =
        match runCalls s l₁ with
        | .ok s' => runCalls s' l₂
        | .err s' e => .err s' e
        | .panic => .panic := by
  induction l₁ with
  | nil => intro s l₂; rfl
  | cons a rest ih =>
    intro s l₂
    cases h : execute s (.Call a) with
    | ok s' => simp [runCalls, h, ih s' l₂]
    | err s' e => simp [runCalls, h]
    | panic => simp [runCalls, h]

theorem runCalls_ok (l : List Nat) :
    ∀ s : CpuState, s.sp + l.length ≤ STACK_SIZE →
      ∃ s', runCalls s l = .ok s' ∧ s'.sp = s.sp + l.length := by
  induction l with
  | nil => intro s _; exact ⟨s, rfl, by simp⟩
  | cons a rest ih =>
    intro s hs
    simp only [List.length_cons, STACK_SIZE] at hs
    have hlt : ¬ s.sp ≥ STACK_SIZE := by
      simp only [STACK_SIZE]
      omega
    obtain ⟨s', h1, h2⟩ :=
      ih { s with stack := upd s.stack s.sp s.pc, pc := a, sp := s.sp + 1 }
        (by show s.sp + 1 + rest.length ≤ STACK_SIZE
            simp only [STACK_SIZE]
            omega)
    have h2' : s'.sp = s.sp + 1 + rest.length := h2
    refine ⟨s', ?_, ?_⟩
    · simp [runCalls, execute, hlt, h1]
    · simp only [List.length_cons]
      omega

/-- C5: `Call` with a free stack slot pushes the current `PC` into
`stack[sp]`, jumps, and increments `sp`; with `sp ≥ 16` it fails with
`StackOverflow` leaving the state (so `PC`, `sp`, the stack) untouched; a
`Return` directly after a successful `Call` restores exactly the pushed `PC`
and the old `sp` (LIFO); from `sp = 0` any 16 consecutive `Call`s succeed and
any 17th fails with `StackOverflow`. -/
theorem chip8_call_stack_bounded :
    (∀ (s : CpuState) (a : Nat), s.sp < STACK_SIZE →
      execute s (.Call a) =
        .ok { s with stack := upd s.stack s.sp s.pc, pc := a, sp := s.sp + 1 }) ∧
    (∀ (s : CpuState) (a : Nat), STACK_SIZE ≤ s.sp →
      execute s (.Call a) = .err s .StackOverflow) ∧
    (∀ (s : CpuState) (a : Nat), s.sp < STACK_SIZE →
      ∃ s₁ s₂, execute s (.Call a) = .ok s₁ ∧ s₁.pc = a ∧ s₁.stack s.sp = s.pc ∧
        execute s₁ .Return = .ok s₂ ∧ s₂.pc = s.pc ∧ s₂.sp = s.sp) ∧
    (∀ (s : CpuState) (l : List Nat), s.sp = 0 → l.length = 16 →
      ∃ s', runCalls s l = .ok s' ∧
        ∀ a, runCalls s (l ++ [a]) = .err s' .StackOverflow) := by
  have hcall : ∀ (s : CpuState) (a : Nat), s.sp < STACK_SIZE →
      execute s (.Call a) =
        .ok { s with stack := upd s.stack s.sp s.pc, pc := a, sp := s.sp + 1 } := by
    intro s a hs
    have : ¬ s.sp ≥ STACK_SIZE := by omega
    simp [execute, this]
  refine ⟨hcall, ?_, ?_, ?_⟩
  · intro s a hs
    simp [execute, hs]
  · intro s a hs
    refine ⟨{ s with stack := upd s.stack s.sp s.pc, pc := a, sp := s.sp + 1 },
      { s with stack := upd s.stack s.sp s.pc, pc := s.pc, sp := s.sp },
      hcall s a hs, rfl, upd_same _ _ _, ?_, rfl, rfl⟩
    simp [execute, upd]
  · intro s l hsp hlen
    obtain ⟨s', h1, h2⟩ := runCalls_ok l s (by simp [hlen, hsp, STACK_SIZE])
    refine ⟨s', h1, fun a => ?_⟩
    rw [runCalls_append, h1]
    have hfull : s'.sp ≥ STACK_SIZE := by
      simp only [STACK_SIZE]; omega
    show (match execute s' (.Call a) with
      | .ok s'' => runCalls s'' []
      | .err s'' e => .err s'' e
      | .panic => .panic) = _
    simp [execute, hfull]

/-- Witness for C5: a fresh machine accepts 16 nested calls and rejects the
17th. -/
theorem chip8_call_stack_bounded_witness :
    ∃ s', runCalls zeroState (List.replicate 16 0x300) = .ok s' ∧
      ∀ a, runCalls zeroState (List.replicate 16 0x300 ++ [a])
        = .err s' .StackOverflow :=
  chip8_call_stack_bounded.2.2.2 zeroState (List.replicate 16 0x300) rfl (by decide)

/-! ## C6 — self-jump detection and the end-to-end `JP 0x200` program -/

/-- The `SPRITES` font table of `src/cpu.rs` (80 bytes at address 0). -/
def SPRITES : List Nat :=
  [0xF0, 0x90, 0x90, 0x90, 0xF0,
   0x20, 0x60, 0x20, 0x20, 0x70,
   0xF0, 0x10, 0xF0, 0x80, 0xF0,
   0xF0, 0x10, 0xF0, 0x10, 0xF0,
   0x90, 0x90, 0xF0, 0x10, 0x10,
   0xF0, 0x80, 0xF0, 0x10, 0xF0,
   0xF0, 0x80, 0xF0, 0x90, 0xF0,
   0xF0, 0x10, 0x20, 0x40, 0x40,
   0xF0, 0x90, 0xF0, 0x90, 0xF0,
   0xF0, 0x90, 0xF0, 0x10, 0xF0,
   0xF0, 0x90, 0xF0, 0x90, 0x90,
   0xE0, 0x90, 0xE0, 0x90, 0xE0,
   0xF0, 0x80, 0x80, 0x80, 0xF0,
   0xE0, 0x90, 0x90, 0x90, 0xE0,
   0xF0, 0x80, 0xF0, 0x80, 0xF0,
   0xF0, 0x80, 0xF0, 0x80, 0x80]

/-- The memory `Cpu.new` builds: zeroed, the font copied to address 0, the
program image copied to `PC_START = 0x200`. -/
def initMem (program : List Nat) : Nat → Nat := fun a =>
  if a < SPRITES.length then SPRITES.getD a 0
  else if PC_START ≤ a ∧ a < PC_START + program.length then
    program.getD (a - PC_START) 0
  else 0

/-- The machine `Cpu.new` returns for a given program image. -/
def initState (program : List Nat) : CpuState :=
  { v := fun _ => 0, i := 0, dt := 0, pc := PC_START, sp := 0,
    stack := fun _ => 0, mem := initMem program,
    screen := fun _ _ => false, rng := 0 }

/-- The error of an execution outcome, if any. -/
def errOf : ExecOut → Option CpuError
  | .err _ e => some e
  | _ => none

/-- C6: `Jump(addr)` fails with `InfiniteLoop`, leaving the state (hence
`PC`) untouched, exactly when `addr` is the `u16` value `PC - 2` (the program
counter before the already-fetched jump); otherwise it sets `PC = addr`.
Consequently one fetch-decode-execute cycle on the program `JP 0x200`
(bytes `12 00`) loaded at `0x200` yields `InfiniteLoop`. -/
theorem chip8_jump_self_infinite_loop :
    (∀ (s : CpuState) (a : Nat), (s.pc + 65534) % 65536 = a →
      execute s (.Jump a) = .err s .InfiniteLoop) ∧
    (∀ (s : CpuState) (a : Nat), (s.pc + 65534) % 65536 ≠ a →
      execute s (.Jump a) = .ok { s with pc := a }) ∧
    errOf (cycle (initState [0x12, 0x00])) = some .InfiniteLoop := by
  refine ⟨?_, ?_, ?_⟩
  · intro s a h
    simp [execute, h]
  · intro s a h
    simp [execute, h]
  · rfl

/-- Witness for C6: on a fresh machine (`PC = 0x200`) a decoded `JP 0x1FE`
-- the word at `PC - 2` -- is rejected, and `JP 0x300` is taken. -/
theorem chip8_jump_self_infinite_loop_witness :
    execute zeroState (.Jump 0x1FE) = .err zeroState .InfiniteLoop ∧
    execute zeroState (.Jump 0x300) = .ok { zeroState with pc := 0x300 } :=
  ⟨chip8_jump_self_infinite_loop.1 zeroState 0x1FE (by decide),
   chip8_jump_self_infinite_loop.2.1 zeroState 0x300 (by decide)⟩

/-! ## C8 — draw masking and per-pixel clipping (no mid-sprite wraparound)

The spec-side rendering of the draw rule: mask the start coordinates
(`x & 63`, `y & 31`), then for every sprite row and every set bit flip the
pixel at `(x + bit offset, y + row offset)` — but only if that pixel lies on
the screen; an off-screen pixel is skipped individually, nothing wraps
around.  The source instead `break`s out of a row at the first off-screen
pixel; the two agree because the column only ever increases along a row. -/

/-- Spec-side sprite row: each set bit whose pixel is on screen is XOR-flipped
(recording the previous pixel state in the running `VF`), each off-screen
pixel is skipped on its own, with no wraparound and no early exit. -/
def clippedRowGo (data y : Nat) : Nat → Nat → (Nat → Nat → Bool) → Nat →
    ((Nat → Nat → Bool) × Nat)
  | 0, _, scr, vf => (scr, vf)
  | k + 1, xx, scr, vf =>
    if 0 < (1 <<< k) &&& data then
      if xx < NCOLS ∧ y < NROWS then
        clippedRowGo data y k (xx + 1) (upd2 scr y xx (!scr y xx))
          (if scr y xx then 1 else 0)
      else
        clippedRowGo data y k (xx + 1) scr vf
    else
      clippedRowGo data y k (xx + 1) scr vf

/-- Spec-side outer loop over the sprite rows, identical to the source's
memory walk. -/
def clippedRowsGo (mem : Nat → Nat) (iReg x : Nat) :
    Nat → Nat → Nat → (Nat → Nat → Bool) → Nat →
    ((Nat → Nat → Bool) × Nat × Option CpuError)
  | 0, _, _, scr, vf => (scr, vf, none)
  | k + 1, off, y, scr, vf =>
    match getByte mem (addrOffset iReg off) with
    | .error e => (scr, vf, some e)
    | .ok data =>
      let p := clippedRowGo data y 8 x scr vf
      clippedRowsGo mem iReg x k (off + 1) (y + 1) p.1 p.2

/-- Spec-side `Draw`: mask the start coordinates modulo the screen
dimensions, then draw each row with per-pixel clipping. -/
def drawClipped (s : CpuState) (regx regy n : Nat) : ExecOut :=
  let x := s.v regx &&& 63
  let y := s.v regy &&& 31
  match clippedRowsGo s.mem s.i x n 0 y s.screen (s.v 15) with
  | (scr, vf, none) => .ok { s with screen := scr, v := upd s.v 15 vf }
  | (scr, vf, some e) => .err { s with screen := scr, v := upd s.v 15 vf } e

theorem clippedRowGo_offscreen (data y : Nat) (k : Nat) :
    ∀ (xx : Nat) (scr : Nat → Nat → Bool) (vf : Nat),
      NCOLS ≤ xx ∨ NROWS ≤ y →
      clippedRowGo data y k xx scr vf = (scr, vf) := by
  induction k with
  | zero => intro xx scr vf _; rfl
  | succ k ih =>
    intro xx scr vf h
    have hnot : ¬ (xx < NCOLS ∧ y < NROWS) := by
      rcases h with h | h
      · exact fun hc => absurd h (by omega)
      · exact fun hc => absurd h (by omega)
    have h' : NCOLS ≤ xx + 1 ∨ NROWS ≤ y := by
      rcases h with h | h
      · exact Or.inl (by omega)
      · exact Or.inr h
    by_cases hbit : 0 < (1 <<< k) &&& data <;>
      simp [clippedRowGo, hbit, hnot, ih (xx + 1) scr vf h']

theorem drawRowGo_eq_clipped (data y : Nat) (k : Nat) :
    ∀ (xx : Nat) (scr : Nat → Nat → Bool) (vf : Nat),
      drawRowGo data y k xx scr vf = clippedRowGo data y k xx scr vf := by
  induction k with
  | zero => intro xx scr vf; rfl
  | succ k ih =>
    intro xx scr vf
    by_cases hbit : 0 < (1 <<< k) &&& data
    · by_cases hin : xx < NCOLS ∧ y < NROWS
      · have hflip : flip scr xx y = some (scr y xx, upd2 scr y xx (!scr y xx)) := by
          have : ¬ (xx ≥ NCOLS ∨ y ≥ NROWS) := by omega
          simp [flip, this]
        simp [drawRowGo, clippedRowGo, hbit, hin, hflip, ih]
      · have hoff : NCOLS ≤ xx ∨ NROWS ≤ y := by omega
        have hflip : flip scr xx y = none := by
          have : xx ≥ NCOLS ∨ y ≥ NROWS := hoff
          simp [flip, this]
        rw [show drawRowGo data y (k + 1) xx scr vf = (scr, vf) by
              simp [drawRowGo, hbit, hflip]]
        rw [show clippedRowGo data y (k + 1) xx scr vf
              = clippedRowGo data y k (xx + 1) scr vf by
              simp [clippedRowGo, hbit, hin]]
        exact (clippedRowGo_offscreen data y k (xx + 1) scr vf
          (by rcases hoff with h | h
              · exact Or.inl (by omega)
              · exact Or.inr h)).symm
    · simp [drawRowGo, clippedRowGo, hbit, ih]

theorem drawRowsGo_eq_clipped (mem : Nat → Nat) (iReg x : Nat) (k : Nat) :
    ∀ (off y : Nat) (scr : Nat → Nat → Bool) (vf : Nat),
      drawRowsGo mem iReg x k off y scr vf
        = clippedRowsGo mem iReg x k off y scr vf := by
  induction k with
  | zero => intro off y scr vf; rfl
  | succ k ih =>
    intro off y scr vf
    cases h : getByte mem (addrOffset iReg off) with
    | error e => simp [drawRowsGo, clippedRowsGo, h]
    | ok data =>
      simp [drawRowsGo, clippedRowsGo, h, drawRowGo_eq_clipped, ih]

/-- C8: the `Draw` arm of `execute` agrees, on every state and operand
choice, with the spec-side clipped draw: start coordinates masked
`x & 63` / `y & 31` before drawing, each off-screen pixel during sprite
unrolling skipped without wraparound, each on-screen pixel of a set bit
XOR-flipped normally. -/
theorem chip8_draw_masks_and_clips (s : CpuState) (regx regy n : Nat) :
    execute s (.Draw regx regy n) = drawClipped s regx regy n := by
  show (match drawRowsGo s.mem s.i (s.v regx &&& 63) n 0 (s.v regy &&& 31)
          s.screen (s.v 15) with
    | (scr, vf, none) => ExecOut.ok { s with screen := scr, v := upd s.v 15 vf }
    | (scr, vf, some e) =>
        ExecOut.err { s with screen := scr, v := upd s.v 15 vf } e) = _
  rw [drawRowsGo_eq_clipped]
  rfl

/-! ## C1 — `VF` after `Draw` is the last flip's collision, not "any collision"

The source overwrites `VF` on every flipped pixel
(`self.v[VRegister::VF] = res as u8`), so after the draw `VF` holds the
collision status of the *last* flipped pixel only, and is left untouched when
no pixel is flipped.  The doc comment of `Dxyn` in `src/isa.rs` ("If this
causes any pixels to be erased, VF is set to 1, otherwise it is set to 0")
and the spec both require `VF = 1` whenever *any* collision occurred.  The
state below exhibits the divergence: pixel `(0,0)` is on, the sprite byte
`0xC0` first flips `(0,0)` (a collision — the pixel is erased) and then
flips `(1,0)` (no collision), leaving `VF = 0`. -/

/-- Screen with exactly pixel `(x = 0, y = 0)` on; sprite byte `0xC0` at
`I = 0x300`; all registers zero, so `Draw V0 V0 1` draws at `(0, 0)`. -/
def collisionState : CpuState :=
  { v := fun _ => 0, i := 0x300, dt := 0, pc := PC_START, sp := 0,
    stack := fun _ => 0,
    mem := fun a => if a = 0x300 then 0xC0 else 0,
    screen := fun y x => y == 0 && x == 0, rng := 0 }

/-- The `(VF, pixel 00, pixel 01)` view of a successful outcome. -/
def drawView : ExecOut → Option (Nat × Bool × Bool)
  | .ok s => some (s.v 15, s.screen 0 0, s.screen 0 1)
  | _ => none

/-- C1 (failing input): drawing `0xC0` over a screen whose pixel `(0,0)` is
on completes without error, *erases* that pixel — a collision — yet ends
with `VF = 0`, because the later non-colliding flip of `(1,0)` overwrote the
flag.  The claim (and the source's own `Dxyn` documentation) requires
`VF = 1` here. -/
theorem chip8_draw_vf_overwritten_bug :
    collisionState.screen 0 0 = true ∧
    drawView (execute collisionState (.Draw 0 0 1)) = some (0, false, true) := by
  constructor
  · rfl
  · rfl

/-! ## C2 — the decoder table

`0x8xy6` is *not* an unassigned gap: the source decodes it to
`ShiftRight(Vx)` (`[0x8, .., 0x6] => Ok(ShiftRight(vx?))`), so the claim's
example of a failing `0x8` pattern is wrong; the actual gaps of the `0x8`
family are the trailing nibbles `0x8`‥`0xD` and `0xF` (the assigned trailing
nibbles are `0x0`‥`0x7` and `0xE`).  Everything else in the claim
holds and is proved below as a complete characterisation of `decode` on the
16-bit words, pattern by pattern, with the operands extracted as the claim
states (address = low 12 bits, immediate = low byte, `Vx` = second-highest
nibble, `Vy` = second-lowest nibble, sprite count = low nibble). -/

/-- C2 (counterexample): the word `0x8126` matches the claimed gap shape
`0x8xy6` but decodes successfully to `SHR V1` instead of failing with
`InvalidInstruction`. -/
theorem chip8_decode_8xy6_not_invalid :
    decode 0x8126 = .ok (.ShiftRight 1) ∧ ∀ e, decode 0x8126 ≠ .error e :=
  ⟨rfl, by
    intro e h
    rw [show decode 0x8126 = Except.ok (Instruction.ShiftRight 1) from rfl] at h
    exact Except.noConfusion h⟩

/-- `decode` of a word given by its four nibbles, with the extracted
`addr`/`lsb`/`lsn` arguments spelled out. -/
theorem decode_nibble_form (a b c d : Nat)
    (ha : a < 16) (hb : b < 16) (hc : c < 16) (hd : d < 16) :
    decode (a * 4096 + b * 256 + c * 16 + d)
      = decodeAux a b c d (b * 256 + c * 16 + d) (c * 16 + d) d
          (a * 4096 + b * 256 + c * 16 + d) := by
  have e1 : (a * 4096 + b * 256 + c * 16 + d) / 4096 % 16 = a := by omega
  have e2 : (a * 4096 + b * 256 + c * 16 + d) / 256 % 16 = b := by omega
  have e3 : (a * 4096 + b * 256 + c * 16 + d) / 16 % 16 = c := by omega
  have e4 : (a * 4096 + b * 256 + c * 16 + d) % 16 = d := by omega
  have e5 : (a * 4096 + b * 256 + c * 16 + d) % 4096 = b * 256 + c * 16 + d := by
    omega
  have e6 : (a * 4096 + b * 256 + c * 16 + d) % 256 = c * 16 + d := by omega
  simp only [decode, split_into_nibbles, e1, e2, e3, e4, e5, e6]

/-- C2 (amended): the complete decode table.  Every documented pattern
decodes to its tagged instruction with the operands extracted from the word
(address = low 12 bits, immediate = low byte, `Vx` = nibble at bits 11–8,
`Vy` = nibble at bits 7–4, count = low nibble); every other 16-bit word —
the `0x0` family apart from `00E0`/`00EE`, `5xy*`/`9xy*` with a nonzero
trailing nibble, the `0x8` family gaps (trailing nibble `0x8`‥`0xD` or
`0xF`, but *not* `0x6`, which is `SHR`, nor `0xE`, which is `SHL`), the
whole `0xE` family, and unassigned `0xF` suffixes — fails with
`InvalidInstruction` carrying that word. -/
theorem chip8_decode_table :
    (∀ b c d : Nat, b < 16 → c < 16 → d < 16 →
      decode (0x1000 + b * 256 + c * 16 + d)
        = .ok (.Jump (b * 256 + c * 16 + d))) ∧
    (∀ b c d : Nat, b < 16 → c < 16 → d < 16 →
      decode (0x2000 + b * 256 + c * 16 + d)
        = .ok (.Call (b * 256 + c * 16 + d))) ∧
    (∀ b c d : Nat, b < 16 → c < 16 → d < 16 →
      decode (0xA000 + b * 256 + c * 16 + d)
        = .ok (.LoadI (b * 256 + c * 16 + d))) ∧
    (∀ b c d : Nat, b < 16 → c < 16 → d < 16 →
      decode (0xB000 + b * 256 + c * 16 + d)
        = .ok (.JumpOffset (b * 256 + c * 16 + d))) ∧
    (∀ b c d : Nat, b < 16 → c < 16 → d < 16 →
      decode (0x3000 + b * 256 + c * 16 + d)
        = .ok (.SkipIfEqualImm b (c * 16 + d))) ∧
    (∀ b c d : Nat, b < 16 → c < 16 → d < 16 →
      decode (0x4000 + b * 256 + c * 16 + d)
        = .ok (.SkipIfNotEqualImm b (c * 16 + d))) ∧
    (∀ b c d : Nat, b < 16 → c < 16 → d < 16 →
      decode (0x6000 + b * 256 + c * 16 + d)
        = .ok (.LoadImm b (c * 16 + d))) ∧
    (∀ b c d : Nat, b < 16 → c < 16 → d < 16 →
      decode (0x7000 + b * 256 + c * 16 + d)
        = .ok (.AddImm b (c * 16 + d))) ∧
    (∀ b c d : Nat, b < 16 → c < 16 → d < 16 →
      decode (0xC000 + b * 256 + c * 16 + d)
        = .ok (.AndRandom b (c * 16 + d))) ∧
    (∀ b c : Nat, b < 16 → c < 16 →
      decode (0x5000 + b * 256 + c * 16) = .ok (.SkipIfEqual b c)) ∧
    (∀ b c : Nat, b < 16 → c < 16 →
      decode (0x9000 + b * 256 + c * 16) = .ok (.SkipIfNotEqual b c)) ∧
    (∀ b c : Nat, b < 16 → c < 16 →
      decode (0x8000 + b * 256 + c * 16) = .ok (.Move b c)) ∧
    (∀ b c : Nat, b < 16 → c < 16 →
      decode (0x8001 + b * 256 + c * 16) = .ok (.Or b c)) ∧
    (∀ b c : Nat, b < 16 → c < 16 →
      decode (0x8002 + b * 256 + c * 16) = .ok (.And b c)) ∧
    (∀ b c : Nat, b < 16 → c < 16 →
      decode (0x8003 + b * 256 + c * 16) = .ok (.Xor b c)) ∧
    (∀ b c : Nat, b < 16 → c < 16 →
      decode (0x8004 + b * 256 + c * 16) = .ok (.Add b c)) ∧
    (∀ b c : Nat, b < 16 → c < 16 →
      decode (0x8005 + b * 256 + c * 16) = .ok (.Subtract b c)) ∧
    (∀ b c : Nat, b < 16 → c < 16 →
      decode (0x8006 + b * 256 + c * 16) = .ok (.ShiftRight b)) ∧
    (∀ b c : Nat, b < 16 → c < 16 →
      decode (0x8007 + b * 256 + c * 16) = .ok (.SubtractN b c)) ∧
    (∀ b c : Nat, b < 16 → c < 16 →
      decode (0x800E + b * 256 + c * 16) = .ok (.ShiftLeft b)) ∧
    (∀ b c d : Nat, b < 16 → c < 16 → d < 16 →
      decode (0xD000 + b * 256 + c * 16 + d) = .ok (.Draw b c d)) ∧
    (∀ b : Nat, b < 16 → decode (0xF007 + b * 256) = .ok (.LoadDT b)) ∧
    (∀ b : Nat, b < 16 → decode (0xF015 + b * 256) = .ok (.StoreDT b)) ∧
    (∀ b : Nat, b < 16 → decode (0xF018 + b * 256) = .ok .Nop) ∧
    (∀ b : Nat, b < 16 → decode (0xF01E + b * 256) = .ok (.AddI b)) ∧
    (∀ b : Nat, b < 16 → decode (0xF029 + b * 256) = .ok (.LoadSprite b)) ∧
    (∀ b : Nat, b < 16 → decode (0xF033 + b * 256) = .ok (.StoreBCD b)) ∧
    (∀ b : Nat, b < 16 → decode (0xF055 + b * 256) = .ok (.Store b)) ∧
    (∀ b : Nat, b < 16 → decode (0xF065 + b * 256) = .ok (.Load b)) ∧
    decode 0x00E0 = .ok .ClearScreen ∧
    decode 0x00EE = .ok .Return ∧
    (∀ b c d : Nat, b < 16 → c < 16 → d < 16 →
      ¬(b = 0 ∧ c = 14 ∧ d = 0) → ¬(b = 0 ∧ c = 14 ∧ d = 14) →
      decode (b * 256 + c * 16 + d)
        = .error (.InvalidInstruction (b * 256 + c * 16 + d))) ∧
    (∀ b c d : Nat, b < 16 → c < 16 → d < 16 → d ≠ 0 →
      decode (0x5000 + b * 256 + c * 16 + d)
        = .error (.InvalidInstruction (0x5000 + b * 256 + c * 16 + d))) ∧
    (∀ b c d : Nat, b < 16 → c < 16 → d < 16 → 8 ≤ d → d ≠ 14 →
      decode (0x8000 + b * 256 + c * 16 + d)
        = .error (.InvalidInstruction (0x8000 + b * 256 + c * 16 + d))) ∧
    (∀ b c d : Nat, b < 16 → c < 16 → d < 16 → d ≠ 0 →
      decode (0x9000 + b * 256 + c * 16 + d)
        = .error (.InvalidInstruction (0x9000 + b * 256 + c * 16 + d))) ∧
    (∀ b c d : Nat, b < 16 → c < 16 → d < 16 →
      decode (0xE000 + b * 256 + c * 16 + d)
        = .error (.InvalidInstruction (0xE000 + b * 256 + c * 16 + d))) ∧
    (∀ b c d : Nat, b < 16 → c < 16 → d < 16 →
      ¬(c = 0 ∧ d = 7) → ¬(c = 1 ∧ d = 5) → ¬(c = 1 ∧ d = 8) →
      ¬(c = 1 ∧ d = 14) → ¬(c = 2 ∧ d = 9) → ¬(c = 3 ∧ d = 3) →
      ¬(c = 5 ∧ d = 5) → ¬(c = 6 ∧ d = 5) →
      decode (0xF000 + b * 256 + c * 16 + d)
        = .error (.InvalidInstruction (0xF000 + b * 256 + c * 16 + d))) := by
  refine ⟨?_, ?_, ?_, ?_, ?_, ?_, ?_, ?_, ?_, ?_, ?_, ?_, ?_, ?_, ?_, ?_, ?_,
    ?_, ?_, ?_, ?_, ?_, ?_, ?_, ?_, ?_, ?_, ?_, ?_, rfl, rfl, ?_, ?_, ?_, ?_,
    ?_, ?_⟩
  · intro b c d hb hc hd
    rw [show (0x1000 + b * 256 + c * 16 + d : Nat)
          = 1 * 4096 + b * 256 + c * 16 + d by omega]
    rw [decode_nibble_form 1 b c d (by norm_num) hb hc hd]
    simp [decodeAux]
  · intro b c d hb hc hd
    rw [show (0x2000 + b * 256 + c * 16 + d : Nat)
          = 2 * 4096 + b * 256 + c * 16 + d by omega]
    rw [decode_nibble_form 2 b c d (by norm_num) hb hc hd]
    simp [decodeAux]
  · intro b c d hb hc hd
    rw [show (0xA000 + b * 256 + c * 16 + d : Nat)
          = 10 * 4096 + b * 256 + c * 16 + d by omega]
    rw [decode_nibble_form 10 b c d (by norm_num) hb hc hd]
    simp [decodeAux]
  · intro b c d hb hc hd
    rw [show (0xB000 + b * 256 + c * 16 + d : Nat)
          = 11 * 4096 + b * 256 + c * 16 + d by omega]
    rw [decode_nibble_form 11 b c d (by norm_num) hb hc hd]
    simp [decodeAux]
  · intro b c d hb hc hd
    rw [show (0x3000 + b * 256 + c * 16 + d : Nat)
          = 3 * 4096 + b * 256 + c * 16 + d by omega]
    rw [decode_nibble_form 3 b c d (by norm_num) hb hc hd]
    simp [decodeAux, tryReg, hb, Except.map]
  · intro b c d hb hc hd
    rw [show (0x4000 + b * 256 + c * 16 + d : Nat)
          = 4 * 4096 + b * 256 + c * 16 + d by omega]
    rw [decode_nibble_form 4 b c d (by norm_num) hb hc hd]
    simp [decodeAux, tryReg, hb, Except.map]
  · intro b c d hb hc hd
    rw [show (0x6000 + b * 256 + c * 16 + d : Nat)
          = 6 * 4096 + b * 256 + c * 16 + d by omega]
    rw [decode_nibble_form 6 b c d (by norm_num) hb hc hd]
    simp [decodeAux, tryReg, hb, Except.map]
  · intro b c d hb hc hd
    rw [show (0x7000 + b * 256 + c * 16 + d : Nat)
          = 7 * 4096 + b * 256 + c * 16 + d by omega]
    rw [decode_nibble_form 7 b c d (by norm_num) hb hc hd]
    simp [decodeAux, tryReg, hb, Except.map]
  · intro b c d hb hc hd
    rw [show (0xC000 + b * 256 + c * 16 + d : Nat)
          = 12 * 4096 + b * 256 + c * 16 + d by omega]
    rw [decode_nibble_form 12 b c d (by norm_num) hb hc hd]
    simp [decodeAux, tryReg, hb, Except.map]
  · intro b c hb hc
    rw [show (0x5000 + b * 256 + c * 16 : Nat)
          = 5 * 4096 + b * 256 + c * 16 + 0 by omega]
    rw [decode_nibble_form 5 b c 0 (by norm_num) hb hc (by norm_num)]
    simp [decodeAux, tryReg, hb, hc, Except.map, Except.bind]
  · intro b c hb hc
    rw [show (0x9000 + b * 256 + c * 16 : Nat)
          = 9 * 4096 + b * 256 + c * 16 + 0 by omega]
    rw [decode_nibble_form 9 b c 0 (by norm_num) hb hc (by norm_num)]
    simp [decodeAux, tryReg, hb, hc, Except.map, Except.bind]
  · intro b c hb hc
    rw [show (0x8000 + b * 256 + c * 16 : Nat)
          = 8 * 4096 + b * 256 + c * 16 + 0 by omega]
    rw [decode_nibble_form 8 b c 0 (by norm_num) hb hc (by norm_num)]
    simp [decodeAux, tryReg, hb, hc, Except.map, Except.bind]
  · intro b c hb hc
    rw [show (0x8001 + b * 256 + c * 16 : Nat)
          = 8 * 4096 + b * 256 + c * 16 + 1 by omega]
    rw [decode_nibble_form 8 b c 1 (by norm_num) hb hc (by norm_num)]
    simp [decodeAux, tryReg, hb, hc, Except.map, Except.bind]
  · intro b c hb hc
    rw [show (0x8002 + b * 256 + c * 16 : Nat)
          = 8 * 4096 + b * 256 + c * 16 + 2 by omega]
    rw [decode_nibble_form 8 b c 2 (by norm_num) hb hc (by norm_num)]
    simp [decodeAux, tryReg, hb, hc, Except.map, Except.bind]
  · intro b c hb hc
    rw [show (0x8003 + b * 256 + c * 16 : Nat)
          = 8 * 4096 + b * 256 + c * 16 + 3 by omega]
    rw [decode_nibble_form 8 b c 3 (by norm_num) hb hc (by norm_num)]
    simp [decodeAux, tryReg, hb, hc, Except.map, Except.bind]
  · intro b c hb hc
    rw [show (0x8004 + b * 256 + c * 16 : Nat)
          = 8 * 4096 + b * 256 + c * 16 + 4 by omega]
    rw [decode_nibble_form 8 b c 4 (by norm_num) hb hc (by norm_num)]
    simp [decodeAux, tryReg, hb, hc, Except.map, Except.bind]
  · intro b c hb hc
    rw [show (0x8005 + b * 256 + c * 16 : Nat)
          = 8 * 4096 + b * 256 + c * 16 + 5 by omega]
    rw [decode_nibble_form 8 b c 5 (by norm_num) hb hc (by norm_num)]
    simp [decodeAux, tryReg, hb, hc, Except.map, Except.bind]
  · intro b c hb hc
    rw [show (0x8006 + b * 256 + c * 16 : Nat)
          = 8 * 4096 + b * 256 + c * 16 + 6 by omega]
    rw [decode_nibble_form 8 b c 6 (by norm_num) hb hc (by norm_num)]
    simp [decodeAux, tryReg, hb, Except.map]
  · intro b c hb hc
    rw [show (0x8007 + b * 256 + c * 16 : Nat)
          = 8 * 4096 + b * 256 + c * 16 + 7 by omega]
    rw [decode_nibble_form 8 b c 7 (by norm_num) hb hc (by norm_num)]
    simp [decodeAux, tryReg, hb, hc, Except.map, Except.bind]
  · intro b c hb hc
    rw [show (0x800E + b * 256 + c * 16 : Nat)
          = 8 * 4096 + b * 256 + c * 16 + 14 by omega]
    rw [decode_nibble_form 8 b c 14 (by norm_num) hb hc (by norm_num)]
    simp [decodeAux, tryReg, hb, Except.map]
  · intro b c d hb hc hd
    rw [show (0xD000 + b * 256 + c * 16 + d : Nat)
          = 13 * 4096 + b * 256 + c * 16 + d by omega]
    rw [decode_nibble_form 13 b c d (by norm_num) hb hc hd]
    simp [decodeAux, tryReg, hb, hc, Except.map, Except.bind]
  · intro b hb
    rw [show (0xF007 + b * 256 : Nat)
          = 15 * 4096 + b * 256 + 0 * 16 + 7 by omega]
    rw [decode_nibble_form 15 b 0 7 (by norm_num) hb (by norm_num) (by norm_num)]
    simp [decodeAux, tryReg, hb, Except.map]
  · intro b hb
    rw [show (0xF015 + b * 256 : Nat)
          = 15 * 4096 + b * 256 + 1 * 16 + 5 by omega]
    rw [decode_nibble_form 15 b 1 5 (by norm_num) hb (by norm_num) (by norm_num)]
    simp [decodeAux, tryReg, hb, Except.map]
  · intro b hb
    rw [show (0xF018 + b * 256 : Nat)
          = 15 * 4096 + b * 256 + 1 * 16 + 8 by omega]
    rw [decode_nibble_form 15 b 1 8 (by norm_num) hb (by norm_num) (by norm_num)]
    simp [decodeAux]
  · intro b hb
    rw [show (0xF01E + b * 256 : Nat)
          = 15 * 4096 + b * 256 + 1 * 16 + 14 by omega]
    rw [decode_nibble_form 15 b 1 14 (by norm_num) hb (by norm_num) (by norm_num)]
    simp [decodeAux, tryReg, hb, Except.map]
  · intro b hb
    rw [show (0xF029 + b * 256 : Nat)
          = 15 * 4096 + b * 256 + 2 * 16 + 9 by omega]
    rw [decode_nibble_form 15 b 2 9 (by norm_num) hb (by norm_num) (by norm_num)]
    simp [decodeAux, tryReg, hb, Except.map]
  · intro b hb
    rw [show (0xF033 + b * 256 : Nat)
          = 15 * 4096 + b * 256 + 3 * 16 + 3 by omega]
    rw [decode_nibble_form 15 b 3 3 (by norm_num) hb (by norm_num) (by norm_num)]
    simp [decodeAux, tryReg, hb, Except.map]
  · intro b hb
    rw [show (0xF055 + b * 256 : Nat)
          = 15 * 4096 + b * 256 + 5 * 16 + 5 by omega]
    rw [decode_nibble_form 15 b 5 5 (by norm_num) hb (by norm_num) (by norm_num)]
    simp [decodeAux, tryReg, hb, Except.map]
  · intro b hb
    rw [show (0xF065 + b * 256 : Nat)
          = 15 * 4096 + b * 256 + 6 * 16 + 5 by omega]
    rw [decode_nibble_form 15 b 6 5 (by norm_num) hb (by norm_num) (by norm_num)]
    simp [decodeAux, tryReg, hb, Except.map]
  · intro b c d hb hc hd h1 h2
    rw [show (b * 256 + c * 16 + d : Nat)
          = 0 * 4096 + b * 256 + c * 16 + d by omega]
    rw [decode_nibble_form 0 b c d (by norm_num) hb hc hd]
    simp [decodeAux, h1, h2]
  · intro b c d hb hc hd hdne
    rw [show (0x5000 + b * 256 + c * 16 + d : Nat)
          = 5 * 4096 + b * 256 + c * 16 + d by omega]
    rw [decode_nibble_form 5 b c d (by norm_num) hb hc hd]
    simp [decodeAux, hdne]
  · intro b c d hb hc hd hd8 hd14
    have n0 : d ≠ 0 := by omega
    have n1 : d ≠ 1 := by omega
    have n2 : d ≠ 2 := by omega
    have n3 : d ≠ 3 := by omega
    have n4 : d ≠ 4 := by omega
    have n5 : d ≠ 5 := by omega
    have n6 : d ≠ 6 := by omega
    have n7 : d ≠ 7 := by omega
    rw [show (0x8000 + b * 256 + c * 16 + d : Nat)
          = 8 * 4096 + b * 256 + c * 16 + d by omega]
    rw [decode_nibble_form 8 b c d (by norm_num) hb hc hd]
    simp [decodeAux, n0, n1, n2, n3, n4, n5, n6, n7, hd14]
  · intro b c d hb hc hd hdne
    rw [show (0x9000 + b * 256 + c * 16 + d : Nat)
          = 9 * 4096 + b * 256 + c * 16 + d by omega]
    rw [decode_nibble_form 9 b c d (by norm_num) hb hc hd]
    simp [decodeAux, hdne]
  · intro b c d hb hc hd
    rw [show (0xE000 + b * 256 + c * 16 + d : Nat)
          = 14 * 4096 + b * 256 + c * 16 + d by omega]
    rw [decode_nibble_form 14 b c d (by norm_num) hb hc hd]
    simp [decodeAux]
  · intro b c d hb hc hd h1 h2 h3 h4 h5 h6 h7 h8
    rw [show (0xF000 + b * 256 + c * 16 + d : Nat)
          = 15 * 4096 + b * 256 + c * 16 + d by omega]
    rw [decode_nibble_form 15 b c d (by norm_num) hb hc hd]
    simp [decodeAux, h1, h2, h3, h4, h5, h6, h7, h8]

/-- Witness for C2 (amended): the Jump pattern at word `0x1234`, and the
`0x8` gaps at words `0x8018` and `0x801F`. -/
theorem chip8_decode_table_witness :
    decode (0x1000 + 2 * 256 + 3 * 16 + 4) = .ok (.Jump (2 * 256 + 3 * 16 + 4)) ∧
    decode (0x8000 + 0 * 256 + 1 * 16 + 8)
      = .error (.InvalidInstruction (0x8000 + 0 * 256 + 1 * 16 + 8)) ∧
    decode (0x8000 + 0 * 256 + 1 * 16 + 15)
      = .error (.InvalidInstruction (0x8000 + 0 * 256 + 1 * 16 + 15)) := by
  obtain ⟨hJump, -, -, -, -, -, -, -, -, -, -, -, -, -, -, -, -, -, -, -, -,
    -, -, -, -, -, -, -, -, -, -, -, -, hGap, -, -, -⟩ := chip8_decode_table
  exact ⟨hJump 2 3 4 (by norm_num) (by norm_num) (by norm_num),
    hGap 0 1 8 (by norm_num) (by norm_num) (by norm_num) (by norm_num)
      (by norm_num),
    hGap 0 1 15 (by norm_num) (by norm_num) (by norm_num) (by norm_num)
      (by norm_num)⟩

end Chip8
